import Mathlib

/-!
Shallow embedding of `src/shortcut-creator.py`, the single source file of the
repository.  The embedding covers the parts of the `ShortcutCreator` class
that implement behaviour (the `validate_inputs` method and the
`create_shortcut` method: input validation, desktop-entry rendering, and the
install pipeline).  GUI chrome (widget construction, styling, dialogs, the
log pane) is out of scope; the embedding receives the collected field values
as a `ShortcutRequest` and models the filesystem and the one external command
through an explicit oracle environment (`Env`) plus an explicit state (`St`)
that records file contents, file modes, and a trace of the side effects
performed.
-/

/-- The seven field values the form collects at submit time (the texts of the
line edits, the current combo-box text, and the two check boxes), read by
`create_shortcut` in the source.  The source GUI has no interpreter field. -/
structure ShortcutRequest where
  executablePath : String
  iconPath : String
  name : String
  comment : String
  category : String
  terminal : Bool
  desktopCopy : Bool
  deriving DecidableEq

/-- Python `stat.S_IEXEC` (equal to `stat.S_IXUSR`): the owner execute bit. -/
def S_IEXEC : Nat := 0o100

/-- Python `stat.S_IXUSR`: the owner execute bit. -/
def S_IXUSR : Nat := 0o100

/-- Python `stat.S_IXGRP`: the group execute bit. -/
def S_IXGRP : Nat := 0o010

/-- Python `stat.S_IXOTH`: the other execute bit. -/
def S_IXOTH : Nat := 0o001

/-- The three execute permission bits together (octal 111). -/
def execBits : Nat := S_IXUSR ||| S_IXGRP ||| S_IXOTH

/-- The newline character used between the lines of the rendered entry. -/
def nlS : String := "\n"

/-- Python `str.lower()` character by character; it agrees with CPython on
ASCII input (the only place the source applies it is the application name
typed into a single-line edit). -/
def pyLower (s : String) : String :=
  String.mk (s.data.map Char.toLower)

/-- Python `str.replace(a, b)` for single-character pattern and replacement,
which is a character map. -/
def pyReplaceChar (s : String) (a b : Char) : String :=
  String.mk (s.data.map (fun c => if c = a then b else c))

/-- Source line 378: `desktop_filename = app_name.lower().replace(' ', '-') + '.desktop'`. -/
def desktop_filename_of (name : String) : String :=
  pyReplaceChar (pyLower name) ' ' '-' ++ ".desktop"

/-- The derived filename as the specification words it: lower-case the name,
replace every space with a hyphen, append the extension — here as one
character pass, to be compared with the source's two-pass computation. -/
def filename_spec (name : String) : String :=
  String.mk (name.data.map (fun c => if c = ' ' then '-' else Char.toLower c)) ++ ".desktop"

/-- The Exec value as the specification words it for its interpreter field:
the interpreter path, a space and the executable path when the interpreter
is non-empty, the executable path alone otherwise.  The source request has
no interpreter field, so this is a specification-side definition used only
to compare the specified line with the rendered one. -/
def exec_line_spec (interp exe : String) : String :=
  if interp ≠ "" then interp ++ " " ++ exe else exe

/-- Source lines 380-388: the f-string `desktop_content` before the optional
icon suffix, written here with its embedded newlines made explicit. -/
def desktop_base (req : ShortcutRequest) : String :=
  "[Desktop Entry]" ++ nlS ++
  "Version=1.0" ++ nlS ++
  "Type=Application" ++ nlS ++
  "Name=" ++ req.name ++ nlS ++
  "Comment=" ++ (if req.comment = "" then req.name else req.comment) ++ nlS ++
  "Exec=" ++ req.executablePath ++ nlS ++
  "Terminal=" ++ (if req.terminal then "true" else "false") ++ nlS ++
  "Categories=" ++ req.category ++ ";" ++ nlS ++
  "StartupNotify=true"

/-- Source lines 390-391: `if self.icon_path.text(): desktop_content += f"\nIcon={...}"`. -/
def desktop_content (req : ShortcutRequest) : String :=
  if req.iconPath = "" then desktop_base req
  else desktop_base req ++ nlS ++ "Icon=" ++ req.iconPath

/-- The rendered content as the list of its lines (the strings the source
joins with newlines).  The field values come from single-line edit widgets,
so they contain no newline themselves. -/
def contentLines (req : ShortcutRequest) : List String :=
  (["[Desktop Entry]", "Version=1.0", "Type=Application",
    "Name=" ++ req.name,
    "Comment=" ++ (if req.comment = "" then req.name else req.comment),
    "Exec=" ++ req.executablePath,
    "Terminal=" ++ (if req.terminal then "true" else "false"),
    "Categories=" ++ req.category ++ ";",
    "StartupNotify=true"]) ++
  (if req.iconPath = "" then [] else ["Icon=" ++ req.iconPath])

/-- Bool test: does this rendered line carry the icon key? -/
def isIconLine (l : String) : Bool :=
  List.isPrefixOf (String.data ("Icon=")) l.data

/-- Filesystem view: content (when the file exists) and permission mode of
each path.  Modes are total: for a path created by a write, the pre-assigned
mode plays the role of the creation mode the OS would pick. -/
structure FS where
  files : String → Option String
  modes : String → Nat

/-- One recorded side effect of the pipeline. -/
inductive Event where
  | chmodEv (path : String) (oldMode newMode : Nat)
  | writeEv (path : String) (content : String)
  | mkdirEv (path : String)
  | execEv (cmd : List String)
  deriving DecidableEq

/-- Which permission changes an event may make: a chmod event must only add
execute bits into the current mode, leaving every other bit unchanged;
events of other kinds are unconstrained. -/
def onlyAddsExec : Event → Prop
  | Event.chmodEv _ old new => new ||| execBits = old ||| execBits ∧ old ||| new = new
  | _ => True

/-- Outcome of `subprocess.run(['update-desktop-database', dir], check=True)`
as the source distinguishes them: normal exit, `CalledProcessError` raised by
`check=True`, or `FileNotFoundError` because the command is absent. -/
inductive DbResult where
  | ok
  | calledProcessError (msg : String)
  | fileNotFound
  deriving DecidableEq

/-- Oracle environment: the user's home directory, `os.path.exists` answers
at validation time, and the failure behaviour of each fallible operation of
one run. -/
structure Env where
  home : String
  pathExists : String → Bool
  writeFails : String → Bool
  chmodFails : String → Bool
  mkdirFails : Bool
  updateDb : DbResult
  desktopExists : Bool

/-- Mutable state of a run: the filesystem plus the trace of effects. -/
structure St where
  fs : FS
  trace : List Event

/-- Result of one fallible pipeline step: either the next state, or the
message of the raised exception together with the state reached so far. -/
inductive StepOut where
  | ok (s : St)
  | err (msg : String) (s : St)

/-- Sequencing of fallible steps: a raised exception skips the rest. -/
def andThen (x : StepOut) (f : St → StepOut) : StepOut :=
  match x with
  | StepOut.ok s => f s
  | StepOut.err m s => StepOut.err m s

/-- The state carried by a step result (on error, the partial state). -/
def stOf (x : StepOut) : St :=
  match x with
  | StepOut.ok s => s
  | StepOut.err _ s => s

/-- The error message of a step result, if any. -/
def errOf (x : StepOut) : Option String :=
  match x with
  | StepOut.ok _ => none
  | StepOut.err m _ => some m

/-- `os.chmod(path, m)`: records the event and updates the mode map. -/
def chmodApply (s : St) (path : String) (m : Nat) : St :=
  ⟨⟨s.fs.files, fun p => if p = path then m else s.fs.modes p⟩,
   s.trace ++ [Event.chmodEv path (s.fs.modes path) m]⟩

/-- `open(path, 'w')` followed by `write(content)`: truncates and replaces
the previous content, leaving the mode of an existing file unchanged. -/
def writeApply (s : St) (path content : String) : St :=
  ⟨⟨fun p => if p = path then some content else s.fs.files p, s.fs.modes⟩,
   s.trace ++ [Event.writeEv path content]⟩

/-- `os.access(path, os.X_OK)` for the user owning the file: the owner
execute bit of the current mode. -/
def accessX (s : St) (path : String) : Bool :=
  s.fs.modes path &&& S_IEXEC ≠ 0

/-- Source lines 338-356, `validate_inputs`: the first failing check shows
its error dialog and returns `False`; Python string truthiness makes the
emptiness checks exact comparisons with the empty string. -/
def validate_inputs (env : Env) (req : ShortcutRequest) : Option String :=
  if req.executablePath = "" then some ("Please select an executable file")
  else if env.pathExists req.executablePath = false then
    some ("Executable file does not exist")
  else if req.name = "" then some ("Please enter an application name")
  else if req.iconPath ≠ "" ∧ env.pathExists req.iconPath = false then
    some ("Icon file does not exist")
  else none

/-- Path of the per-user applications directory used by the source:
`Path.home() / '.local' / 'share' / 'applications'`. -/
def apps_dir (home : String) : String :=
  home ++ "/.local/share/applications"

/-- Path of the primary entry file written by the source. -/
def entry_path (home name : String) : String :=
  apps_dir home ++ "/" ++ desktop_filename_of name

/-- Path of the optional desktop copy written by the source. -/
def desktop_copy_path (home name : String) : String :=
  home ++ "/Desktop/" ++ desktop_filename_of name

/-- Source lines 370-374: if the target executable fails the `os.access`
execute check, `os.chmod` it to its current `st_mode` OR `stat.S_IEXEC`;
otherwise only a log line is emitted. -/
def step_repair_exec (env : Env) (req : ShortcutRequest) (s : St) : StepOut :=
  if accessX s req.executablePath then StepOut.ok s
  else if env.chmodFails req.executablePath then
    StepOut.err ("chmod failed: " ++ req.executablePath) s
  else StepOut.ok (chmodApply s req.executablePath
    (s.fs.modes req.executablePath ||| S_IEXEC))

/-- Source lines 394-407: ensure the applications directory exists, write the
entry file, and chmod it to its current mode OR the four execute-bit
constants.  Each operation may raise; a raise aborts with the state so far. -/
def step_write_entry (env : Env) (req : ShortcutRequest) (s : St) : StepOut :=
  if env.mkdirFails then StepOut.err ("mkdir failed: " ++ apps_dir env.home) s
  else
    let s1 : St := ⟨s.fs, s.trace ++ [Event.mkdirEv (apps_dir env.home)]⟩
    let path := entry_path env.home req.name
    if env.writeFails path then StepOut.err ("write failed: " ++ path) s1
    else
      let s2 := writeApply s1 path (desktop_content req)
      if env.chmodFails path then StepOut.err ("chmod failed: " ++ path) s2
      else StepOut.ok (chmodApply s2 path
        (s2.fs.modes path ||| S_IEXEC ||| S_IXUSR ||| S_IXGRP ||| S_IXOTH))

/-- Source lines 416-424: run `update-desktop-database` on the applications
directory; `CalledProcessError` and `FileNotFoundError` are caught and only
logged, so this step never raises.  (Lines 410-414, the executability
verify, are an `os.access` check that only chooses a log line and has no
effect, so they contribute nothing to the state.) -/
def step_update_db (env : Env) (s : St) : St :=
  match env.updateDb with
  | DbResult.ok =>
      ⟨s.fs, s.trace ++ [Event.execEv ["update-desktop-database", apps_dir env.home]]⟩
  | DbResult.calledProcessError _ =>
      ⟨s.fs, s.trace ++ [Event.execEv ["update-desktop-database", apps_dir env.home]]⟩
  | DbResult.fileNotFound => s

/-- Source lines 426-437: if requested and `~/Desktop` exists, write the same
content there and chmod it like the entry file; a missing Desktop directory
is only logged.  The write and the chmod are not inside any local handler,
so a raise here aborts like the fatal steps. -/
def step_desktop_copy (env : Env) (req : ShortcutRequest) (s : St) : StepOut :=
  if req.desktopCopy then
    if env.desktopExists then
      let path := desktop_copy_path env.home req.name
      if env.writeFails path then StepOut.err ("write failed: " ++ path) s
      else
        let s1 := writeApply s path (desktop_content req)
        if env.chmodFails path then StepOut.err ("chmod failed: " ++ path) s1
        else StepOut.ok (chmodApply s1 path
          (s1.fs.modes path ||| S_IEXEC ||| S_IXUSR ||| S_IXGRP ||| S_IXOTH))
    else StepOut.ok s
  else StepOut.ok s

/-- The body of the `try` block of `create_shortcut`, source lines 364-442. -/
def run_pipeline (env : Env) (req : ShortcutRequest) (s0 : St) : StepOut :=
  andThen (step_repair_exec env req s0) (fun s1 =>
  andThen (step_write_entry env req s1) (fun s2 =>
  step_desktop_copy env req (step_update_db env s2)))

/-- The single user-visible notification of a submission. -/
inductive Outcome where
  | success (appName : String)
  | failure (msg : String)
  | rejected (msg : String)
  deriving DecidableEq

/-- Source lines 357-447, `create_shortcut`: run validation; on failure the
method returns before any side effect.  Otherwise run the pipeline inside the
all-catching `try`: an exception produces the error dialog wrapping the
exception text, completion produces the success dialog naming the app. -/
def create_shortcut (env : Env) (fs0 : FS) (req : ShortcutRequest) : Outcome × St :=
  match validate_inputs env req with
  | some msg => (Outcome.rejected msg, ⟨fs0, []⟩)
  | none =>
    match run_pipeline env req ⟨fs0, []⟩ with
    | StepOut.ok s => (Outcome.success req.name, s)
    | StepOut.err m s =>
        (Outcome.failure ("Error creating desktop shortcut: " ++ m), s)

/-- The outcome determined by a pipeline result. -/
def outcomeOf (req : ShortcutRequest) (x : StepOut) : Outcome :=
  match x with
  | StepOut.ok _ => Outcome.success req.name
  | StepOut.err m _ => Outcome.failure ("Error creating desktop shortcut: " ++ m)

/-- Concrete request used for the C1 counterexample. -/
def C1req : ShortcutRequest :=
  ⟨"/opt/app", "", "Run App", "", "Utility", false, false⟩

/-- Concrete environment used for the C2 counterexample and witness. -/
def C2env : Env :=
  ⟨"/home/u", fun p => p == "/opt/app", fun _ => false, fun _ => false,
   false, DbResult.ok, false⟩

/-- Concrete initial filesystem for C2: every mode is `rw-r--r--`. -/
def C2fs : FS := ⟨fun _ => none, fun _ => 0o644⟩

/-- Concrete request used for the C2 counterexample and witness. -/
def C2req : ShortcutRequest :=
  ⟨"/opt/app", "", "Run App", "", "Utility", false, false⟩

/-- Concrete environment for the C3 counterexample: everything succeeds
except the write of the desktop copy. -/
def C3env : Env :=
  ⟨"/home/u", fun p => p == "/opt/app",
   fun p => p == "/home/u/Desktop/run-app.desktop", fun _ => false,
   false, DbResult.ok, true⟩

/-- Concrete initial filesystem for C3. -/
def C3fs : FS := ⟨fun _ => none, fun _ => 0o644⟩

/-- Concrete request for the C3 counterexample: the desktop copy is on. -/
def C3req : ShortcutRequest :=
  ⟨"/opt/app", "", "Run App", "", "Utility", false, true⟩

/-- Concrete environment for the C3 witness: no Desktop directory. -/
def C3wenv : Env :=
  ⟨"/home/u", fun p => p == "/opt/app", fun _ => false, fun _ => false,
   false, DbResult.ok, false⟩

/-- Concrete initial filesystem for the C3 witness. -/
def C3wfs : FS := ⟨fun _ => none, fun _ => 0o644⟩

/-- Concrete environment for the C4 witness. -/
def C4env : Env :=
  ⟨"/home/u", fun p => p == "/opt/app", fun _ => false, fun _ => false,
   false, DbResult.ok, false⟩

/-- Concrete initial filesystem for the C4 witness. -/
def C4fs : FS := ⟨fun _ => none, fun _ => 0o644⟩

/-- Concrete request for the C4 witness: the name is empty, everything else
is valid. -/
def C4req : ShortcutRequest :=
  ⟨"/opt/app", "", "", "", "Utility", false, false⟩

/-- Concrete environment for the C5 counterexample and witness. -/
def C5env : Env :=
  ⟨"/home/u", fun p => p == "/opt/app", fun _ => false, fun _ => false,
   false, DbResult.ok, false⟩

/-- Concrete initial filesystem for the C5 counterexample. -/
def C5fs : FS := ⟨fun _ => none, fun _ => 0o644⟩

/-- Concrete request for C5: the name is a single space character. -/
def C5req : ShortcutRequest :=
  ⟨"/opt/app", "", " ", "", "Utility", false, false⟩

/-- Concrete request for the C7 witness: a non-empty icon path. -/
def C7req : ShortcutRequest :=
  ⟨"/opt/app", "/opt/icon.png", "Run App", "", "Utility", false, false⟩

/-- Concrete request for the C8 witness: an empty comment. -/
def C8req : ShortcutRequest :=
  ⟨"/opt/app", "", "Run App", "", "Utility", false, false⟩

/-- Concrete environment for the C9 witness, with the indexing command
absent (the operation must still succeed). -/
def C9env : Env :=
  ⟨"/home/u", fun p => p == "/opt/app", fun _ => false, fun _ => false,
   false, DbResult.fileNotFound, false⟩

/-- Concrete initial filesystem for the C9 witness. -/
def C9fs : FS := ⟨fun _ => none, fun _ => 0o644⟩

/-- Concrete request for the C9 witness. -/
def C9req : ShortcutRequest :=
  ⟨"/opt/app", "", "Run App", "", "Utility", false, false⟩

/-- Concrete environment for the C10 witness. -/
def C10env : Env :=
  ⟨"/home/u", fun p => p == "/opt/app", fun _ => false, fun _ => false,
   false, DbResult.ok, false⟩

/-- Concrete initial filesystem for the C10 witness. -/
def C10fs : FS := ⟨fun _ => none, fun _ => 0o644⟩

/-- Concrete request for the C10 witness. -/
def C10req : ShortcutRequest :=
  ⟨"/opt/app", "", "Run App", "", "Utility", false, false⟩

/-- The rendered content is exactly its lines joined by newlines. -/
theorem desktop_content_eq_intercalate (req : ShortcutRequest) :
    desktop_content req = String.intercalate nlS (contentLines req) := by
  by_cases h : req.iconPath = "" <;>
    simp [desktop_content, desktop_base, contentLines, h, String.intercalate,
      String.intercalate.go, String.append_assoc]

/-- Two strings that start with distinct first characters stay different
after appending arbitrary suffixes. -/
theorem append_ne_of_head (a b x y : String)
    (h : a.data.head? ≠ b.data.head?) (ha : a.data ≠ []) (hb : b.data ≠ []) :
    a ++ x ≠ b ++ y := by
  intro he
  apply h
  have hd : a.data ++ x.data = b.data ++ y.data := by
    have h2 := congrArg String.data he
    simpa using h2
  calc a.data.head? = (a.data ++ x.data).head? :=
        (List.head?_append_of_ne_nil _ ha).symm
    _ = (b.data ++ y.data).head? := by rw [hd]
    _ = b.data.head? := List.head?_append_of_ne_nil _ hb

/-- ASCII lowering never produces a space from a non-space character. -/
theorem toLower_ne_space (c : Char) (h : c ≠ ' ') : Char.toLower c ≠ ' ' := by
  unfold Char.toLower
  simp only []
  by_cases h2 : c.toNat ≥ 65 ∧ c.toNat ≤ 90
  · rw [if_pos h2]
    generalize c.toNat = n at h2
    obtain ⟨h65, h90⟩ := h2
    interval_cases n <;> decide
  · rw [if_neg h2]
    exact h

/-- The source's lower-then-replace filename computation equals the
single-pass specification map. -/
theorem filename_spec_eq (name : String) :
    desktop_filename_of name = filename_spec name := by
  unfold desktop_filename_of filename_spec pyReplaceChar pyLower
  congr 1
  congr 1
  rw [List.map_map]
  apply List.map_congr_left
  intro c _
  by_cases hc : c = ' '
  · subst hc
    decide
  · simp only [Function.comp_apply, if_neg hc, if_neg (toLower_ne_space c hc)]

/-- A line starting with a key whose first character is not `I` is not an
icon line, whatever the appended field value is. -/
theorem isIconLine_key_append (k x : String)
    (hk : k.data.head? ≠ some 'I') (hne : k.data ≠ []) :
    isIconLine (k ++ x) = false := by
  rcases hc : k.data with _ | ⟨c, t⟩
  · exact absurd hc hne
  · have hcI : ('I' == c) = false := by
      rw [beq_eq_false_iff_ne]
      intro he
      exact hk (by rw [hc, ← he]; rfl)
    unfold isIconLine
    rw [String.data_append, hc]
    show List.isPrefixOf ('I' :: String.data ("con=")) (c :: (t ++ x.data)) = false
    simp [List.isPrefixOf, hcI]

/-- Undoing `andThen` after a successful step. -/
theorem andThen_ok (s : St) (f : St → StepOut) : andThen (StepOut.ok s) f = f s := rfl

/-- Undoing `andThen` after a failed step. -/
theorem andThen_err (m : String) (s : St) (f : St → StepOut) :
    andThen (StepOut.err m s) f = StepOut.err m s := rfl

/-- OR-ing a mask below the execute bits changes nothing outside them and
only adds bits. -/
theorem lor_only_adds (m e : Nat) (he : e ||| execBits = execBits) :
    (m ||| e) ||| execBits = m ||| execBits ∧ m ||| (m ||| e) = m ||| e := by
  constructor
  · rw [Nat.or_assoc, he]
  · rw [← Nat.or_assoc, Nat.or_self]

/-- The repair chmod of the pipeline only adds the owner execute bit. -/
theorem onlyAddsExec_owner (m : Nat) (p : String) :
    onlyAddsExec (Event.chmodEv p m (m ||| S_IEXEC)) := by
  show (m ||| S_IEXEC) ||| execBits = m ||| execBits
    ∧ m ||| (m ||| S_IEXEC) = m ||| S_IEXEC
  exact lor_only_adds m S_IEXEC (by decide)

/-- The entry-file and copy chmods only add the three execute bits. -/
theorem onlyAddsExec_all (m : Nat) (p : String) :
    onlyAddsExec (Event.chmodEv p m
      (m ||| S_IEXEC ||| S_IXUSR ||| S_IXGRP ||| S_IXOTH)) := by
  have h4 : m ||| S_IEXEC ||| S_IXUSR ||| S_IXGRP ||| S_IXOTH
      = m ||| (S_IEXEC ||| S_IXUSR ||| S_IXGRP ||| S_IXOTH) := by
    simp [Nat.or_assoc]
  show (m ||| S_IEXEC ||| S_IXUSR ||| S_IXGRP ||| S_IXOTH) ||| execBits = m ||| execBits
    ∧ m ||| (m ||| S_IEXEC ||| S_IXUSR ||| S_IXGRP ||| S_IXOTH)
      = m ||| S_IEXEC ||| S_IXUSR ||| S_IXGRP ||| S_IXOTH
  rw [h4]
  exact lor_only_adds m (S_IEXEC ||| S_IXUSR ||| S_IXGRP ||| S_IXOTH) (by decide)

/-- The repair step appends only events that satisfy `onlyAddsExec`. -/
theorem trace_repair (env : Env) (req : ShortcutRequest) (s : St) :
    ∃ t, (stOf (step_repair_exec env req s)).trace = s.trace ++ t
      ∧ ∀ ev ∈ t, onlyAddsExec ev := by
  unfold step_repair_exec
  by_cases h1 : accessX s req.executablePath
  · refine ⟨[], by simp [h1, stOf], by simp⟩
  · by_cases h2 : env.chmodFails req.executablePath
    · refine ⟨[], by simp [h1, h2, stOf], by simp⟩
    · refine ⟨[Event.chmodEv req.executablePath (s.fs.modes req.executablePath)
        (s.fs.modes req.executablePath ||| S_IEXEC)], ?_, ?_⟩
      · simp [h1, h2, stOf, chmodApply]
      · intro ev hev
        simp only [List.mem_cons, List.not_mem_nil, or_false] at hev
        subst hev
        exact onlyAddsExec_owner _ _

/-- The entry-writing step appends only events that satisfy `onlyAddsExec`. -/
theorem trace_write_entry (env : Env) (req : ShortcutRequest) (s : St) :
    ∃ t, (stOf (step_write_entry env req s)).trace = s.trace ++ t
      ∧ ∀ ev ∈ t, onlyAddsExec ev := by
  unfold step_write_entry
  by_cases h1 : env.mkdirFails
  · refine ⟨[], by simp [h1, stOf], by simp⟩
  · by_cases h2 : env.writeFails (entry_path env.home req.name)
    · refine ⟨[Event.mkdirEv (apps_dir env.home)], ?_, ?_⟩
      · simp [h1, h2, stOf]
      · intro ev hev
        simp only [List.mem_cons, List.not_mem_nil, or_false] at hev
        subst hev
        trivial
    · by_cases h3 : env.chmodFails (entry_path env.home req.name)
      · refine ⟨[Event.mkdirEv (apps_dir env.home),
          Event.writeEv (entry_path env.home req.name) (desktop_content req)], ?_, ?_⟩
        · simp [h1, h2, h3, stOf, writeApply]
        · intro ev hev
          simp only [List.mem_cons, List.not_mem_nil, or_false] at hev
          rcases hev with rfl | rfl
          · trivial
          · trivial
      · refine ⟨[Event.mkdirEv (apps_dir env.home),
          Event.writeEv (entry_path env.home req.name) (desktop_content req),
          Event.chmodEv (entry_path env.home req.name)
            (s.fs.modes (entry_path env.home req.name))
            (s.fs.modes (entry_path env.home req.name)
              ||| S_IEXEC ||| S_IXUSR ||| S_IXGRP ||| S_IXOTH)], ?_, ?_⟩
        · simp [h1, h2, h3, stOf, writeApply, chmodApply]
        · intro ev hev
          simp only [List.mem_cons, List.not_mem_nil, or_false] at hev
          rcases hev with rfl | rfl | rfl
          · trivial
          · trivial
          · exact onlyAddsExec_all _ _

/-- The database-refresh step appends only a command event. -/
theorem trace_update_db (env : Env) (s : St) :
    ∃ t, (step_update_db env s).trace = s.trace ++ t ∧ ∀ ev ∈ t, onlyAddsExec ev := by
  unfold step_update_db
  cases env.updateDb
  · refine ⟨[Event.execEv ["update-desktop-database", apps_dir env.home]], rfl, ?_⟩
    intro ev hev
    simp only [List.mem_cons, List.not_mem_nil, or_false] at hev
    subst hev
    trivial
  · refine ⟨[Event.execEv ["update-desktop-database", apps_dir env.home]], rfl, ?_⟩
    intro ev hev
    simp only [List.mem_cons, List.not_mem_nil, or_false] at hev
    subst hev
    trivial
  · exact ⟨[], by simp, by simp⟩

/-- The desktop-copy step appends only events that satisfy `onlyAddsExec`. -/
theorem trace_desktop_copy (env : Env) (req : ShortcutRequest) (s : St) :
    ∃ t, (stOf (step_desktop_copy env req s)).trace = s.trace ++ t
      ∧ ∀ ev ∈ t, onlyAddsExec ev := by
  unfold step_desktop_copy
  by_cases h1 : req.desktopCopy
  · by_cases h2 : env.desktopExists
    · by_cases h3 : env.writeFails (desktop_copy_path env.home req.name)
      · refine ⟨[], by simp [h1, h2, h3, stOf], by simp⟩
      · by_cases h4 : env.chmodFails (desktop_copy_path env.home req.name)
        · refine ⟨[Event.writeEv (desktop_copy_path env.home req.name)
            (desktop_content req)], ?_, ?_⟩
          · simp [h1, h2, h3, h4, stOf, writeApply]
          · intro ev hev
            simp only [List.mem_cons, List.not_mem_nil, or_false] at hev
            subst hev
            trivial
        · refine ⟨[Event.writeEv (desktop_copy_path env.home req.name)
            (desktop_content req),
            Event.chmodEv (desktop_copy_path env.home req.name)
              (s.fs.modes (desktop_copy_path env.home req.name))
              (s.fs.modes (desktop_copy_path env.home req.name)
                ||| S_IEXEC ||| S_IXUSR ||| S_IXGRP ||| S_IXOTH)], ?_, ?_⟩
          · simp [h1, h2, h3, h4, stOf, writeApply, chmodApply]
          · intro ev hev
            simp only [List.mem_cons, List.not_mem_nil, or_false] at hev
            rcases hev with rfl | rfl
            · trivial
            · exact onlyAddsExec_all _ _
    · refine ⟨[], by simp [h1, h2, stOf], by simp⟩
  · refine ⟨[], by simp [h1, stOf], by simp⟩

/-- Whatever the whole pipeline appends beyond the repair step satisfies
`onlyAddsExec`. -/
theorem trace_run_pipeline (env : Env) (req : ShortcutRequest) (s0 : St) :
    ∃ t, (stOf (run_pipeline env req s0)).trace
        = (stOf (step_repair_exec env req s0)).trace ++ t
      ∧ ∀ ev ∈ t, onlyAddsExec ev := by
  unfold run_pipeline
  cases hr : step_repair_exec env req s0
  case err m s1 =>
    exact ⟨[], by simp [andThen, stOf], by simp⟩
  case ok s1 =>
    simp only [andThen, stOf]
    cases hw : step_write_entry env req s1
    case err m s2 =>
      obtain ⟨t1, ht1, hp1⟩ := trace_write_entry env req s1
      rw [hw] at ht1
      exact ⟨t1, by simpa [stOf] using ht1, hp1⟩
    case ok s2 =>
      obtain ⟨t1, ht1, hp1⟩ := trace_write_entry env req s1
      rw [hw] at ht1
      obtain ⟨t2, ht2, hp2⟩ := trace_update_db env s2
      obtain ⟨t3, ht3, hp3⟩ := trace_desktop_copy env req (step_update_db env s2)
      refine ⟨t1 ++ t2 ++ t3, ?_, ?_⟩
      · show (stOf (step_desktop_copy env req (step_update_db env s2))).trace
          = s1.trace ++ (t1 ++ t2 ++ t3)
        rw [ht3, ht2]
        simp only [stOf] at ht1
        rw [ht1]
        simp [List.append_assoc]
      · intro ev hev
        simp only [List.mem_append] at hev
        rcases hev with (hev | hev) | hev
        · exact hp1 ev hev
        · exact hp2 ev hev
        · exact hp3 ev hev

/-- The database-refresh step leaves the filesystem untouched. -/
theorem fs_update_db (env : Env) (s : St) : (step_update_db env s).fs = s.fs := by
  unfold step_update_db
  cases env.updateDb <;> rfl

/-- After a successful entry-writing step, the entry file holds the rendered
content. -/
theorem files_write_entry_ok (env : Env) (req : ShortcutRequest) (s s' : St)
    (h : step_write_entry env req s = StepOut.ok s') :
    s'.fs.files (entry_path env.home req.name) = some (desktop_content req) := by
  unfold step_write_entry at h
  by_cases h1 : env.mkdirFails
  · simp [h1] at h
  · by_cases h2 : env.writeFails (entry_path env.home req.name)
    · simp [h1, h2] at h
    · by_cases h3 : env.chmodFails (entry_path env.home req.name)
      · simp [h1, h2, h3] at h
      · simp [h1, h2, h3, StepOut.ok.injEq] at h
        subst h
        simp [chmodApply, writeApply]

/-- The desktop-copy step can only rewrite a file to the same rendered
content, so a file already holding it keeps it. -/
theorem files_copy_pres (env : Env) (req : ShortcutRequest) (s s' : St) (q : String)
    (h : step_desktop_copy env req s = StepOut.ok s')
    (hq : s.fs.files q = some (desktop_content req)) :
    s'.fs.files q = some (desktop_content req) := by
  unfold step_desktop_copy at h
  by_cases h1 : req.desktopCopy
  · by_cases h2 : env.desktopExists
    · by_cases h3 : env.writeFails (desktop_copy_path env.home req.name)
      · simp [h1, h2, h3] at h
      · by_cases h4 : env.chmodFails (desktop_copy_path env.home req.name)
        · simp [h1, h2, h3, h4] at h
        · simp [h1, h2, h3, h4, StepOut.ok.injEq] at h
          subst h
          simp only [chmodApply, writeApply]
          by_cases h5 : q = desktop_copy_path env.home req.name
          · simp [h5]
          · simp [h5, hq]
    · simp [h1, h2, StepOut.ok.injEq] at h
      subst h
      exact hq
  · simp [h1, StepOut.ok.injEq] at h
    subst h
    exact hq

/-- Whether the desktop-copy step raises does not depend on the incoming
state, only on the environment and the request. -/
theorem errOf_copy_state (env : Env) (req : ShortcutRequest) (s s2 : St) :
    errOf (step_desktop_copy env req s) = errOf (step_desktop_copy env req s2) := by
  unfold step_desktop_copy
  by_cases h1 : req.desktopCopy
  · by_cases h2 : env.desktopExists
    · by_cases h3 : env.writeFails (desktop_copy_path env.home req.name)
      · simp [h1, h2, h3, errOf]
      · by_cases h4 : env.chmodFails (desktop_copy_path env.home req.name)
        · simp [h1, h2, h3, h4, errOf]
        · simp [h1, h2, h3, h4, errOf]
    · simp [h1, h2, errOf]
  · simp [h1, errOf]

/-- The entry-writing step changes no mode outside the entry path. -/
theorem modes_write_entry (env : Env) (req : ShortcutRequest) (s : St) (p : String)
    (hp : p ≠ entry_path env.home req.name) :
    (stOf (step_write_entry env req s)).fs.modes p = s.fs.modes p := by
  unfold step_write_entry
  by_cases h1 : env.mkdirFails
  · simp [h1, stOf]
  · by_cases h2 : env.writeFails (entry_path env.home req.name)
    · simp [h1, h2, stOf]
    · by_cases h3 : env.chmodFails (entry_path env.home req.name)
      · simp [h1, h2, h3, stOf, writeApply]
      · simp [h1, h2, h3, stOf, writeApply, chmodApply, hp]

/-- The desktop-copy step changes no mode outside the copy path. -/
theorem modes_desktop_copy (env : Env) (req : ShortcutRequest) (s : St) (p : String)
    (hp : p ≠ desktop_copy_path env.home req.name) :
    (stOf (step_desktop_copy env req s)).fs.modes p = s.fs.modes p := by
  unfold step_desktop_copy
  by_cases h1 : req.desktopCopy
  · by_cases h2 : env.desktopExists
    · by_cases h3 : env.writeFails (desktop_copy_path env.home req.name)
      · simp [h1, h2, h3, stOf]
      · by_cases h4 : env.chmodFails (desktop_copy_path env.home req.name)
        · simp [h1, h2, h3, h4, stOf, writeApply]
        · simp [h1, h2, h3, h4, stOf, writeApply, chmodApply, hp]
    · simp [h1, h2, stOf]
  · simp [h1, stOf]

/-- When the executable already passes the access check, the repair step is
the identity. -/
theorem repair_skip (env : Env) (req : ShortcutRequest) (s : St)
    (h : accessX s req.executablePath = true) :
    step_repair_exec env req s = StepOut.ok s := by
  unfold step_repair_exec
  simp [h]

/-- When the executable fails the access check and the chmod succeeds, the
repair step performs exactly the owner-bit chmod. -/
theorem repair_fire (env : Env) (req : ShortcutRequest) (s : St)
    (h : accessX s req.executablePath = false)
    (hc : env.chmodFails req.executablePath = false) :
    step_repair_exec env req s
      = StepOut.ok (chmodApply s req.executablePath
          (s.fs.modes req.executablePath ||| S_IEXEC)) := by
  unfold step_repair_exec
  simp [h, hc]

/-- After passing validation, the final state of a submission is the final
state of the pipeline started on a fresh trace. -/
theorem create_state_eq (env : Env) (fs0 : FS) (req : ShortcutRequest)
    (hv : validate_inputs env req = none) :
    (create_shortcut env fs0 req).2 = stOf (run_pipeline env req ⟨fs0, []⟩) := by
  unfold create_shortcut
  rw [hv]
  cases hr : run_pipeline env req ⟨fs0, []⟩ <;> simp [stOf]

/-- A successful pipeline leaves the rendered content in the entry file. -/
theorem run_ok_files (env : Env) (req : ShortcutRequest) (s0 s : St)
    (h : run_pipeline env req s0 = StepOut.ok s) :
    s.fs.files (entry_path env.home req.name) = some (desktop_content req) := by
  unfold run_pipeline at h
  cases hr : step_repair_exec env req s0
  case err m s1 =>
    rw [hr] at h
    simp [andThen] at h
  case ok s1 =>
    rw [hr] at h
    simp only [andThen] at h
    cases hw : step_write_entry env req s1
    case err m s2 =>
      rw [hw] at h
      simp at h
    case ok s2 =>
      rw [hw] at h
      have hf : s2.fs.files (entry_path env.home req.name)
          = some (desktop_content req) :=
        files_write_entry_ok env req s1 s2 hw
      have hf2 : (step_update_db env s2).fs.files (entry_path env.home req.name)
          = some (desktop_content req) := by
        rw [fs_update_db]
        exact hf
      exact files_copy_pres env req (step_update_db env s2) s _ h hf2

/-- A success dialog means validation passed and the pipeline completed,
ending in the reported state. -/
theorem create_success_run (env : Env) (fs0 : FS) (req : ShortcutRequest) (n : String)
    (h : (create_shortcut env fs0 req).1 = Outcome.success n) :
    validate_inputs env req = none
    ∧ run_pipeline env req ⟨fs0, []⟩ = StepOut.ok ((create_shortcut env fs0 req).2) := by
  unfold create_shortcut at h ⊢
  cases hv : validate_inputs env req
  case some m =>
    rw [hv] at h
    simp at h
  case none =>
    refine ⟨rfl, ?_⟩
    cases hr : run_pipeline env req ⟨fs0, []⟩
    case ok s => simp
    case err m s =>
      rw [hr] at h
      rw [hv] at h
      simp at h

/-- After passing validation, the dialog shown is determined by the pipeline
result. -/
theorem create_outcome_eq (env : Env) (fs0 : FS) (req : ShortcutRequest)
    (hv : validate_inputs env req = none) :
    (create_shortcut env fs0 req).1 = outcomeOf req (run_pipeline env req ⟨fs0, []⟩) := by
  unfold create_shortcut
  rw [hv]
  cases hr : run_pipeline env req ⟨fs0, []⟩ <;> simp [outcomeOf]

/-- Pipeline results with the same error status yield the same dialog. -/
theorem outcomeOf_congr (req : ShortcutRequest) (x y : StepOut)
    (h : errOf x = errOf y) : outcomeOf req x = outcomeOf req y := by
  cases x <;> cases y <;> simp [errOf] at h ⊢ <;> simp [outcomeOf, h]

/-- When the directory creation succeeds, the entry-writing step records the
directory event first. -/
theorem trace_write_entry_mkdir (env : Env) (req : ShortcutRequest) (s : St)
    (hmk : env.mkdirFails = false) :
    ∃ t, (stOf (step_write_entry env req s)).trace
      = s.trace ++ (Event.mkdirEv (apps_dir env.home) :: t) := by
  unfold step_write_entry
  by_cases h2 : env.writeFails (entry_path env.home req.name)
  · exact ⟨[], by simp [hmk, h2, stOf]⟩
  · by_cases h3 : env.chmodFails (entry_path env.home req.name)
    · exact ⟨[Event.writeEv (entry_path env.home req.name) (desktop_content req)],
        by simp [hmk, h2, h3, stOf, writeApply]⟩
    · refine ⟨[Event.writeEv (entry_path env.home req.name) (desktop_content req),
        Event.chmodEv (entry_path env.home req.name)
          (s.fs.modes (entry_path env.home req.name))
          (s.fs.modes (entry_path env.home req.name)
            ||| S_IEXEC ||| S_IXUSR ||| S_IXGRP ||| S_IXOTH)], ?_⟩
      simp [hmk, h2, h3, stOf, writeApply, chmodApply]

/-- The tail of the pipeline only appends to the trace produced by the
entry-writing step. -/
theorem trace_after_write (env : Env) (req : ShortcutRequest) (s1 : St) :
    ∃ t, (stOf (andThen (step_write_entry env req s1) (fun s2 =>
        step_desktop_copy env req (step_update_db env s2)))).trace
      = (stOf (step_write_entry env req s1)).trace ++ t := by
  cases hw : step_write_entry env req s1
  case err m s2 =>
    exact ⟨[], by simp [andThen, stOf]⟩
  case ok s2 =>
    simp only [andThen]
    obtain ⟨t2, ht2, _⟩ := trace_update_db env s2
    obtain ⟨t3, ht3, _⟩ := trace_desktop_copy env req (step_update_db env s2)
    refine ⟨t2 ++ t3, ?_⟩
    rw [ht3, ht2]
    simp [stOf, List.append_assoc]

/-- Every event of any submission's trace satisfies `onlyAddsExec`. -/
theorem trace_sound (env : Env) (fs0 : FS) (req : ShortcutRequest) :
    ∀ ev ∈ (create_shortcut env fs0 req).2.trace, onlyAddsExec ev := by
  intro ev hev
  cases hv : validate_inputs env req
  case none =>
    rw [create_state_eq env fs0 req hv] at hev
    obtain ⟨t, ht, hp⟩ := trace_run_pipeline env req ⟨fs0, []⟩
    rw [ht] at hev
    obtain ⟨t0, ht0, hp0⟩ := trace_repair env req ⟨fs0, []⟩
    rw [ht0] at hev
    simp only [List.nil_append, List.mem_append] at hev
    rcases hev with hev | hev
    · exact hp0 ev hev
    · exact hp ev hev
  case some m =>
    have hst : (create_shortcut env fs0 req).2 = ⟨fs0, []⟩ := by
      unfold create_shortcut
      rw [hv]
    rw [hst] at hev
    simp at hev

/-- C1 counterexample: the implementation has no interpreter field, so for a
request whose executable is `/opt/app`, the rendered Exec line is
`Exec=/opt/app` and differs from the line the claim mandates for the
non-empty interpreter `/usr/bin/python3`. -/
theorem C1_cex :
    (contentLines C1req)[5]? = some ("Exec=" ++ C1req.executablePath)
    ∧ "Exec=" ++ exec_line_spec ("/usr/bin/python3") (C1req.executablePath)
      ≠ "Exec=" ++ C1req.executablePath :=
  ⟨rfl, by decide⟩

/-- C1 (amended): for every request, the rendered Exec line is exactly
`Exec=<executablePath>` — the executable path verbatim, with no interpreter
prefix (the implementation has no interpreter field) and no shell-escaping
of embedded spaces. -/
theorem C1_exec_line (req : ShortcutRequest) :
    (contentLines req)[5]? = some ("Exec=" ++ req.executablePath) := by
  simp [contentLines, List.getElem?_append]

/-- C2 counterexample: with the target executable at mode `rw-r--r--`
(octal 644), the first step chmods it to octal 744 — only the owner execute
bit — and not to octal 755 as the claimed owner+group+other grant would
give. -/
theorem C2_cex :
    (create_shortcut C2env C2fs C2req).2.trace.head?
      = some (Event.chmodEv ("/opt/app") 0o644 0o744)
    ∧ (0o744 : Nat) ≠ 0o644 ||| (S_IXUSR ||| S_IXGRP ||| S_IXOTH) :=
  ⟨rfl, by decide⟩

/-- C2 (amended): for every validated request whose target executable lacks
the owner execute bit, the install's first step chmods that executable to
its current mode OR the owner execute bit only; if the executable already
has execute permission, the first recorded action is the directory step and
the executable's mode is left unchanged by the whole run (for an executable
distinct from the two written files). -/
theorem C2_repair_owner_only (env : Env) (fs0 : FS) (req : ShortcutRequest)
    (hchmod : env.chmodFails req.executablePath = false)
    (hmk : env.mkdirFails = false)
    (hne1 : req.executablePath ≠ entry_path env.home req.name)
    (hne2 : req.executablePath ≠ desktop_copy_path env.home req.name)
    (hv : validate_inputs env req = none) :
    (fs0.modes req.executablePath &&& S_IEXEC = 0 →
      (create_shortcut env fs0 req).2.trace.head?
        = some (Event.chmodEv req.executablePath (fs0.modes req.executablePath)
            (fs0.modes req.executablePath ||| S_IEXEC)))
    ∧ (fs0.modes req.executablePath &&& S_IEXEC ≠ 0 →
      (create_shortcut env fs0 req).2.trace.head?
          = some (Event.mkdirEv (apps_dir env.home))
        ∧ (create_shortcut env fs0 req).2.fs.modes req.executablePath
          = fs0.modes req.executablePath) := by
  have hst := create_state_eq env fs0 req hv
  constructor
  · intro hx
    have haX : accessX ⟨fs0, []⟩ req.executablePath = false := by
      simp [accessX]
      exact hx
    have hrep := repair_fire env req ⟨fs0, []⟩ haX hchmod
    rw [hst]
    unfold run_pipeline
    rw [hrep, andThen_ok]
    obtain ⟨t, ht⟩ := trace_after_write env req
      (chmodApply ⟨fs0, []⟩ req.executablePath
        (FS.modes fs0 req.executablePath ||| S_IEXEC))
    rw [ht]
    obtain ⟨t2, ht2, _⟩ := trace_write_entry env req
      (chmodApply ⟨fs0, []⟩ req.executablePath
        (FS.modes fs0 req.executablePath ||| S_IEXEC))
    rw [ht2]
    simp [chmodApply]
  · intro hx
    have haX : accessX ⟨fs0, []⟩ req.executablePath = true := by
      simp [accessX]
      exact hx
    have hrep := repair_skip env req ⟨fs0, []⟩ haX
    rw [hst]
    unfold run_pipeline
    rw [hrep, andThen_ok]
    constructor
    · obtain ⟨t, ht⟩ := trace_after_write env req ⟨fs0, []⟩
      rw [ht]
      obtain ⟨t2, ht2⟩ := trace_write_entry_mkdir env req ⟨fs0, []⟩ hmk
      rw [ht2]
      simp
    · cases hw : step_write_entry env req ⟨fs0, []⟩
      case err m s2 =>
        have h5 := modes_write_entry env req ⟨fs0, []⟩ req.executablePath hne1
        rw [hw] at h5
        rw [andThen_err]
        simpa [stOf] using h5
      case ok s2 =>
        have h5 := modes_write_entry env req ⟨fs0, []⟩ req.executablePath hne1
        rw [hw] at h5
        simp only [stOf] at h5
        rw [andThen_ok]
        have h6 := modes_desktop_copy env req (step_update_db env s2)
          req.executablePath hne2
        rw [h6, fs_update_db]
        exact h5

/-- C2 witness: a concrete run where the executable lacks the owner execute
bit and the first trace event is the owner-bit chmod. -/
theorem C2_witness :
    (create_shortcut C2env C2fs C2req).2.trace.head?
      = some (Event.chmodEv C2req.executablePath (C2fs.modes C2req.executablePath)
          (C2fs.modes C2req.executablePath ||| S_IEXEC)) :=
  (C2_repair_owner_only C2env C2fs C2req rfl rfl (by decide) (by decide) rfl).1 rfl

/-- C3 counterexample: a run in which steps 1 to 4 succeed — the entry file
holds the rendered content — but the write of the desktop copy raises, and
the submission reports an error instead of success. -/
theorem C3_cex :
    (create_shortcut C3env C3fs C3req).2.fs.files
        (entry_path (C3env.home) (C3req.name)) = some (desktop_content C3req)
    ∧ (create_shortcut C3env C3fs C3req).1
      = Outcome.failure
          ("Error creating desktop shortcut: write failed: /home/u/Desktop/run-app.desktop") :=
  ⟨rfl, rfl⟩

/-- C3 (amended): the reported outcome never depends on the result of the
desktop-database refresh (its two failure modes are caught), and a missing
Desktop directory makes the run identical to one without the desktop copy;
but a raise while writing or chmodding the desktop copy does change the
reported outcome (see the counterexample). -/
theorem C3_best_effort_scope :
    (∀ (hm : String) (pe wf cf : String → Bool) (mk : Bool) (d d' : DbResult)
        (de : Bool) (fs0 : FS) (req : ShortcutRequest),
      (create_shortcut ⟨hm, pe, wf, cf, mk, d, de⟩ fs0 req).1
        = (create_shortcut ⟨hm, pe, wf, cf, mk, d', de⟩ fs0 req).1)
    ∧ (∀ (env : Env) (fs0 : FS) (e i n c cat : String) (t : Bool),
      env.desktopExists = false →
      create_shortcut env fs0 ⟨e, i, n, c, cat, t, true⟩
        = create_shortcut env fs0 ⟨e, i, n, c, cat, t, false⟩) := by
  constructor
  · intro hm pe wf cf mk d d' de fs0 req
    have hval : validate_inputs ⟨hm, pe, wf, cf, mk, d, de⟩ req
        = validate_inputs ⟨hm, pe, wf, cf, mk, d', de⟩ req := rfl
    cases hv : validate_inputs ⟨hm, pe, wf, cf, mk, d', de⟩ req
    case some m =>
      unfold create_shortcut
      rw [hval, hv]
    case none =>
      rw [create_outcome_eq _ _ _ (hval.trans hv), create_outcome_eq _ _ _ hv]
      apply outcomeOf_congr
      unfold run_pipeline
      have hrep : step_repair_exec ⟨hm, pe, wf, cf, mk, d, de⟩ req
          = step_repair_exec ⟨hm, pe, wf, cf, mk, d', de⟩ req := rfl
      have hwe : step_write_entry ⟨hm, pe, wf, cf, mk, d, de⟩ req
          = step_write_entry ⟨hm, pe, wf, cf, mk, d', de⟩ req := rfl
      have hcp : step_desktop_copy ⟨hm, pe, wf, cf, mk, d, de⟩ req
          = step_desktop_copy ⟨hm, pe, wf, cf, mk, d', de⟩ req := rfl
      rw [hrep, hwe, hcp]
      cases hr : step_repair_exec ⟨hm, pe, wf, cf, mk, d', de⟩ req ⟨fs0, []⟩
      case err m s1 => rw [andThen_err, andThen_err]
      case ok s1 =>
        rw [andThen_ok, andThen_ok]
        cases hw : step_write_entry ⟨hm, pe, wf, cf, mk, d', de⟩ req s1
        case err m s2 => rw [andThen_err, andThen_err]
        case ok s2 =>
          rw [andThen_ok, andThen_ok]
          exact errOf_copy_state ⟨hm, pe, wf, cf, mk, d', de⟩ req
            (step_update_db ⟨hm, pe, wf, cf, mk, d, de⟩ s2)
            (step_update_db ⟨hm, pe, wf, cf, mk, d', de⟩ s2)
  · intro env fs0 e i n c cat t hde
    have hval : validate_inputs env ⟨e, i, n, c, cat, t, true⟩
        = validate_inputs env ⟨e, i, n, c, cat, t, false⟩ := rfl
    have hcp : ∀ s, step_desktop_copy env ⟨e, i, n, c, cat, t, true⟩ s
        = step_desktop_copy env ⟨e, i, n, c, cat, t, false⟩ s := by
      intro s
      unfold step_desktop_copy
      simp [hde]
    have hrun : run_pipeline env ⟨e, i, n, c, cat, t, true⟩ ⟨fs0, []⟩
        = run_pipeline env ⟨e, i, n, c, cat, t, false⟩ ⟨fs0, []⟩ := by
      unfold run_pipeline
      have hrep : step_repair_exec env ⟨e, i, n, c, cat, t, true⟩
          = step_repair_exec env ⟨e, i, n, c, cat, t, false⟩ := rfl
      have hwe : step_write_entry env ⟨e, i, n, c, cat, t, true⟩
          = step_write_entry env ⟨e, i, n, c, cat, t, false⟩ := rfl
      rw [hrep, hwe]
      cases hr : step_repair_exec env ⟨e, i, n, c, cat, t, false⟩ ⟨fs0, []⟩
      case err m s1 => rw [andThen_err, andThen_err]
      case ok s1 =>
        rw [andThen_ok, andThen_ok]
        cases hw : step_write_entry env ⟨e, i, n, c, cat, t, false⟩ s1
        case err m s2 => rw [andThen_err, andThen_err]
        case ok s2 =>
          rw [andThen_ok, andThen_ok]
          exact hcp _
    unfold create_shortcut
    rw [hval, hrun]

/-- C3 witness: the outcome is unchanged when the indexing command is absent
rather than succeeding, and a run with the desktop copy requested but no
Desktop directory equals the run without the request. -/
theorem C3_witness :
    (create_shortcut ⟨"/home/u", fun p => p == "/opt/app", fun _ => false,
        fun _ => false, false, DbResult.ok, false⟩ C3wfs C3req).1
      = (create_shortcut ⟨"/home/u", fun p => p == "/opt/app", fun _ => false,
          fun _ => false, false, DbResult.fileNotFound, false⟩ C3wfs C3req).1
    ∧ create_shortcut C3wenv C3wfs ⟨"/opt/app", "", "Run App", "", "Utility", false, true⟩
      = create_shortcut C3wenv C3wfs ⟨"/opt/app", "", "Run App", "", "Utility", false, false⟩ :=
  ⟨C3_best_effort_scope.1 ("/home/u") (fun p => p == "/opt/app") (fun _ => false)
      (fun _ => false) false DbResult.ok DbResult.fileNotFound false C3wfs C3req,
   C3_best_effort_scope.2 C3wenv C3wfs ("/opt/app") ("") ("Run App") ("") ("Utility")
      false rfl⟩

/-- C4: each of the four validation failures — empty executable path,
non-existent executable path, empty name, non-empty but non-existent icon
path — independently makes the submission return the rejection dialog with
the initial filesystem untouched and an empty effect trace. -/
theorem C4_validation_rejects (env : Env) (fs0 : FS) (req : ShortcutRequest)
    (h : req.executablePath = "" ∨ env.pathExists req.executablePath = false
      ∨ req.name = "" ∨ (req.iconPath ≠ "" ∧ env.pathExists req.iconPath = false)) :
    ∃ msg, create_shortcut env fs0 req = (Outcome.rejected msg, ⟨fs0, []⟩) := by
  have hsome : ∃ m, validate_inputs env req = some m := by
    unfold validate_inputs
    split_ifs with a b c d
    · exact ⟨_, rfl⟩
    · exact ⟨_, rfl⟩
    · exact ⟨_, rfl⟩
    · exact ⟨_, rfl⟩
    · rcases h with h | h | h | h
      · exact absurd h a
      · exact absurd h b
      · exact absurd h c
      · exact absurd h d
  obtain ⟨m, hm⟩ := hsome
  refine ⟨m, ?_⟩
  unfold create_shortcut
  rw [hm]

/-- C4 witness: a concrete request with an empty name is rejected with no
effect on the filesystem. -/
theorem C4_witness :
    ∃ msg, create_shortcut C4env C4fs C4req = (Outcome.rejected msg, ⟨C4fs, []⟩) :=
  C4_validation_rejects C4env C4fs C4req (Or.inr (Or.inr (Or.inl rfl)))

/-- C5 counterexample: a name consisting of a single space passes validation
unchanged — no trimming happens — and the pipeline runs to a success
dialog. -/
theorem C5_cex :
    C5req.name = " "
    ∧ validate_inputs C5env C5req = none
    ∧ (create_shortcut C5env C5fs C5req).1 = Outcome.success (" ") :=
  ⟨rfl, rfl, rfl⟩

/-- C5 (amended): when the other checks pass, validation accepts the request
exactly when the name differs from the empty string; no whitespace trimming
is applied, so a whitespace-only name is accepted and the pipeline starts. -/
theorem C5_name_empty_only (env : Env) (req : ShortcutRequest)
    (h1 : req.executablePath ≠ "")
    (h2 : env.pathExists req.executablePath = true)
    (h3 : req.iconPath = "" ∨ env.pathExists req.iconPath = true) :
    validate_inputs env req = none ↔ req.name ≠ "" := by
  unfold validate_inputs
  rw [if_neg h1, if_neg (by simp [h2])]
  by_cases hc : req.name = ""
  · simp [hc]
  · rw [if_neg hc]
    have hd : ¬(req.iconPath ≠ "" ∧ env.pathExists req.iconPath = false) := by
      rcases h3 with h3 | h3
      · intro hk
        exact hk.1 h3
      · intro hk
        rw [h3] at hk
        exact absurd hk.2 (by simp)
    rw [if_neg hd]
    simp [hc]

/-- C5 witness: the amended equivalence instantiated at the whitespace-name
request. -/
theorem C5_witness : validate_inputs C5env C5req = none ↔ C5req.name ≠ "" :=
  C5_name_empty_only C5env C5req (by decide) rfl (Or.inl rfl)

/-- C6: for every name, the derived desktop-entry filename is the name
lower-cased with every space replaced by a hyphen and `.desktop` appended;
in particular the name `My Cool App` yields `my-cool-app.desktop`. -/
theorem C6_filename_slug :
    (∀ name, desktop_filename_of name = filename_spec name)
    ∧ desktop_filename_of ("My Cool App") = "my-cool-app.desktop" :=
  ⟨filename_spec_eq, by decide⟩

/-- C7: when the icon path is empty no rendered line carries the Icon key,
and when it is non-empty exactly one line does, that line is the final line,
and it reads `Icon=<iconPath>`. -/
theorem C7_icon_line (req : ShortcutRequest) :
    (req.iconPath = "" → (contentLines req).countP isIconLine = 0)
    ∧ (req.iconPath ≠ "" →
        (contentLines req).countP isIconLine = 1
        ∧ (contentLines req).getLast? = some ("Icon=" ++ req.iconPath)) := by
  have hN : isIconLine ("Name=" ++ req.name) = false :=
    isIconLine_key_append _ _ (by decide) (by decide)
  have hC : isIconLine ("Comment=" ++ (if req.comment = "" then req.name else req.comment))
      = false :=
    isIconLine_key_append _ _ (by decide) (by decide)
  have hE : isIconLine ("Exec=" ++ req.executablePath) = false :=
    isIconLine_key_append _ _ (by decide) (by decide)
  have hT : isIconLine ("Terminal=" ++ (if req.terminal then "true" else "false")) = false :=
    isIconLine_key_append _ _ (by decide) (by decide)
  have hK : isIconLine ("Categories=" ++ req.category ++ ";") = false := by
    rw [String.append_assoc]
    exact isIconLine_key_append _ _ (by decide) (by decide)
  have hL1 : isIconLine ("[Desktop Entry]") = false := by decide
  have hL2 : isIconLine ("Version=1.0") = false := by decide
  have hL3 : isIconLine ("Type=Application") = false := by decide
  have hL9 : isIconLine ("StartupNotify=true") = false := by decide
  have hIcon : isIconLine ("Icon=" ++ req.iconPath) = true := by
    unfold isIconLine
    rw [String.data_append, List.isPrefixOf_iff_prefix]
    exact List.prefix_append _ _
  constructor
  · intro hi
    simp [contentLines, hi, List.countP_cons, List.countP_append, hN, hC, hE, hT, hK,
      hL1, hL2, hL3, hL9]
  · intro hi
    constructor
    · simp [contentLines, hi, List.countP_cons, List.countP_append, hN, hC, hE, hT, hK,
        hL1, hL2, hL3, hL9, hIcon]
    · simp [contentLines, hi, List.getLast?_append]

/-- C7 witness: with a non-empty icon path there is exactly one icon line
and it is the last line. -/
theorem C7_witness :
    (contentLines C7req).countP isIconLine = 1
    ∧ (contentLines C7req).getLast? = some ("Icon=" ++ C7req.iconPath) :=
  (C7_icon_line C7req).2 (by decide)

/-- C8: when the comment is empty, the rendered Comment line carries the
same value as the Name line (the name); when it is non-empty, the Comment
line carries the comment verbatim. -/
theorem C8_comment_defaults (req : ShortcutRequest) :
    (req.comment = "" →
      (contentLines req)[4]? = some ("Comment=" ++ req.name)
      ∧ (contentLines req)[3]? = some ("Name=" ++ req.name))
    ∧ (req.comment ≠ "" →
      (contentLines req)[4]? = some ("Comment=" ++ req.comment)) := by
  constructor
  · intro hc
    constructor <;> simp [contentLines, List.getElem?_append, hc]
  · intro hc
    simp [contentLines, List.getElem?_append, hc]

/-- C8 witness: at a concrete request with an empty comment, the Comment
line repeats the Name line's value. -/
theorem C8_witness :
    (contentLines C8req)[4]? = some ("Comment=" ++ C8req.name)
    ∧ (contentLines C8req)[3]? = some ("Name=" ++ C8req.name) :=
  (C8_comment_defaults C8req).1 rfl

/-- C9: running the submission twice with the same request, when both runs
report success, leaves the entry file with byte-identical rendered content
after the second run — the write overwrites, it does not append. -/
theorem C9_idempotent_write (env : Env) (fs0 : FS) (req : ShortcutRequest)
    (n1 n2 : String)
    (h1 : (create_shortcut env fs0 req).1 = Outcome.success n1)
    (h2 : (create_shortcut env (create_shortcut env fs0 req).2.fs req).1
      = Outcome.success n2) :
    (create_shortcut env (create_shortcut env fs0 req).2.fs req).2.fs.files
        (entry_path env.home req.name)
      = (create_shortcut env fs0 req).2.fs.files (entry_path env.home req.name)
    ∧ (create_shortcut env fs0 req).2.fs.files (entry_path env.home req.name)
      = some (desktop_content req) := by
  obtain ⟨hv1, hr1⟩ := create_success_run env fs0 req n1 h1
  obtain ⟨hv2, hr2⟩ := create_success_run env (create_shortcut env fs0 req).2.fs req n2 h2
  have hf1 := run_ok_files env req _ _ hr1
  have hf2 := run_ok_files env req _ _ hr2
  exact ⟨hf2.trans hf1.symm, hf1⟩

/-- C9 witness: a concrete double run in which both submissions succeed and
the entry file carries the same rendered content after each. -/
theorem C9_witness :
    (create_shortcut C9env (create_shortcut C9env C9fs C9req).2.fs C9req).2.fs.files
        (entry_path (C9env.home) (C9req.name))
      = (create_shortcut C9env C9fs C9req).2.fs.files (entry_path (C9env.home) (C9req.name))
    ∧ (create_shortcut C9env C9fs C9req).2.fs.files (entry_path (C9env.home) (C9req.name))
      = some (desktop_content C9req) :=
  C9_idempotent_write C9env C9fs C9req ("Run App") ("Run App") rfl rfl

/-- C10: every chmod event of any submission's trace — on the executable,
the entry file, or the desktop copy — ORs execute bits into the file's
current mode: all bits outside the three execute bits are preserved and no
bit is cleared. -/
theorem C10_chmod_only_adds_exec (env : Env) (fs0 : FS) (req : ShortcutRequest)
    (p : String) (old new : Nat)
    (hm : Event.chmodEv p old new ∈ (create_shortcut env fs0 req).2.trace) :
    new ||| execBits = old ||| execBits ∧ old ||| new = new :=
  trace_sound env fs0 req _ hm

/-- C10 witness: the owner-bit chmod event of a concrete run, `rw-r--r--`
to `rwxr--r--`. -/
theorem C10_witness :
    (0o744 : Nat) ||| execBits = (0o644 : Nat) ||| execBits
    ∧ (0o644 : Nat) ||| 0o744 = 0o744 :=
  C10_chmod_only_adds_exec C10env C10fs C10req ("/opt/app") 0o644 0o744 (by decide)
